import Mathlib

/-!
# drivethrume: provider parsing, open-status derivation and aggregation

A shallow embedding of `lambda/providers/mcdonalds.go`, `lambda/providers/providers.go`
and `lambda/find_drivethrus.go`.

Modelling conventions.

* A Go call that can panic returns `Except Fault α`; `Fault.error` is a returned Go
  `error`, `Fault.panic` is a run-time panic (failed type assertion, index out of
  range, nil receiver).
* A `float64` decoded from a JSON number is the rational the literal denotes; a literal
  beyond the range of `float64` is a decoding error. A `float64` that is computed, the
  distance, is a `Float64`: not-a-number or a rational, every comparison with a
  not-a-number being false as in Go.
* Library routines that the repository does not define (great-circle distance, zone
  lookup, title casing, the HTTP round trip, the wall clock) are fields of `Env`.
* A `time.Time` is an instant in nanoseconds since the Unix epoch together with its
  `*time.Location`; a location is a zone with one fixed UTC offset, so a local day has
  24 hours. The triple `Year(), Month(), Day()` of a time is represented by the number
  of the local day it denotes, which is what `time.Date` turns it back into.
* A decoded JSON document keeps the members of an object in document order. A Go map
  decoded from an object holds the last member of each name; `encoding/json` decodes
  the members into a struct in document order and matches a member name with a field
  by its exact name or else ignoring case, while schema validation reads names exactly.
* `sort.Slice` is the insertion sort the library runs on short slices; the order it
  gives to records of equal distance is one of those the library may give.
-/

namespace Drivethrume

/-! ## Outcomes -/

/-- The two ways a Go call fails: it returns an `error`, or it panics. -/
inductive Fault where
  | error (msg : String)
  | panic (msg : String)
  deriving DecidableEq, Repr

deriving instance DecidableEq for Except

/-! ## `float64` -/

/-- A computed `float64`: not-a-number, or a finite value. -/
inductive Float64 where
  | nan
  | val (q : ℚ)
  deriving DecidableEq, Repr

namespace Float64

/-- The comparison `x < y` of Go: false as soon as one side is not-a-number. -/
def lt : Float64 → Float64 → Bool
  | val a, val b => decide (a < b)
  | _, _ => false

/-- The comparison `x <= y` of Go: false as soon as one side is not-a-number. -/
def le : Float64 → Float64 → Bool
  | val a, val b => decide (a ≤ b)
  | _, _ => false

/-- The quotient `x / k` by a finite non-zero constant. -/
def divConst : Float64 → ℚ → Float64
  | val a, k => val (a / k)
  | nan, _ => nan

end Float64

/-- A number literal too large for a `float64`: at or beyond the midpoint between the
largest `float64` and 2^1024, `strconv.ParseFloat` reports a range error. -/
def overflowsFloat64 (q : ℚ) : Bool := decide ((2 : ℚ) ^ 1024 - 2 ^ 970 ≤ |q|)

/-! ## `time` -/

namespace time

/-- A `*time.Location` that loaded: a zone name and its offset east of UTC in seconds. -/
structure Location where
  name : String
  offset : Int
  deriving DecidableEq, Repr

/-- The location `time.UTC`. -/
def UTC : Location := ⟨"UTC", 0⟩

/-- A `time.Time`: nanoseconds since the Unix epoch and the location it is shown in. -/
structure Time where
  ns : Int
  loc : Location
  deriving DecidableEq, Repr

/-- Nanoseconds in `time.Second`. -/
def Second : Int := 1000000000

/-- Nanoseconds in `time.Hour`. -/
def Hour : Int := 3600 * Second

namespace Time

/-- Seconds since the epoch on the wall clock of the time's own location. -/
def wall (t : Time) : Int := t.ns / Second + t.loc.offset

/-- The local calendar day of `t` (days since the epoch): its `Year(), Month(), Day()`. -/
def localDay (t : Time) : Int := t.wall / 86400

/-- `t.Hour()`: the hour within the local day, in 0..23. -/
def hour (t : Time) : Int := t.wall % 86400 / 3600

/-- `t.Add(d)` with `d` in nanoseconds. -/
def add (t : Time) (d : Int) : Time := { t with ns := t.ns + d }

/-- `t.After(u)`. -/
def after (t u : Time) : Bool := decide (u.ns < t.ns)

/-- `t.Before(u)`. -/
def before (t u : Time) : Bool := decide (t.ns < u.ns)

end Time

/-- `time.Date(y, mo, d, h, m, 0, 0, loc)` where `day` is the local day number of
`(y, mo, d)`: out-of-range hours and minutes carry over as in Go. The arithmetic is
exact, where Go wraps around beyond the range of 64-bit seconds. -/
def Date (day h m : Int) (loc : Location) : Time :=
  ⟨(day * 86400 + h * 3600 + m * 60 - loc.offset) * Second, loc⟩

end time

/-! ## `strings` and `strconv` -/

/-- Scanner behind `strings.Split`: `skip` counts the separator characters still to be
dropped after a match, `acc` is the current piece in reverse. -/
def splitGo (sep : List Char) : Nat → List Char → List Char → List (List Char)
  | _, [], acc => [acc.reverse]
  | skip + 1, _ :: cs, acc => splitGo sep skip cs acc
  | 0, c :: cs, acc =>
    if sep.isPrefixOf (c :: cs) then acc.reverse :: splitGo sep (sep.length - 1) cs []
    else splitGo sep 0 cs (c :: acc)

/-- `strings.Split(s, sep)` for a non-empty separator. -/
def Split (s sep : String) : List String :=
  (splitGo sep.data 0 s.data []).map String.mk

/-- Value of a run of decimal digits, most significant first. -/
def digitsVal (ds : List Char) : Nat :=
  ds.foldl (fun n c => 10 * n + (c.toNat - 48)) 0

/-- Largest `int` of a 64-bit platform. -/
def maxInt : Int := 9223372036854775807

/-- Smallest `int` of a 64-bit platform. -/
def minInt : Int := -9223372036854775808

/-- The nearest `int` to `v`, which `strconv.Atoi` returns with its range error. -/
def clampInt (v : Int) : Int :=
  if maxInt < v then maxInt else if v < minInt then minInt else v

/-- The unsigned part of `strconv.Atoi`: `none` on a syntax error. -/
def atoiDigits (ds : List Char) : Option Nat :=
  if ds ≠ [] ∧ ds.all Char.isDigit then some (digitsVal ds) else none

/-- `v, _ := strconv.Atoi(s)`: the value with the error dropped. A syntax error gives
0, a value out of range gives the nearest `int`. -/
def Atoi (s : String) : Int :=
  match s.data with
  | '-' :: ds =>
    match atoiDigits ds with
    | some n => clampInt (-(n : Int))
    | none => 0
  | '+' :: ds =>
    match atoiDigits ds with
    | some n => clampInt (n : Int)
    | none => 0
  | ds =>
    match atoiDigits ds with
    | some n => clampInt (n : Int)
    | none => 0

/-! ## `mcdonalds.go`: `parseTime` -/

/-- `parseTime(timeStr, now)`: indexing `parts[0]` or `parts[1]` past the end of the
split panics. -/
def parseTime (timeStr : String) (now : time.Time) : Except Fault time.Time :=
  match Split timeStr ":" with
  | p0 :: p1 :: _ =>
    let h := Atoi p0
    let m := Atoi p1
    .ok (time.Date now.localDay h m now.loc)
  | _ => .error (.panic "index out of range")

/-- Outcome of lines 108-121 and 129-131 of `filterResults`: `IsOpen`, `OpenTime`,
`CloseTime`. -/
structure OpenStatus where
  IsOpen : Bool
  OpenTime : Option time.Time
  CloseTime : Option time.Time
  deriving DecidableEq, Repr

/-- The open-status block of `filterResults` for the text of `driveTodayHours` and the
current time `now` in the location's zone. -/
def openStatus (driveTodayHours : String) (now : time.Time) : Except Fault OpenStatus :=
  match Split driveTodayHours " - " with
  | h0 :: h1 :: _ => do
    let twentyFourHours := decide (h0 = h1)
    let open_ ← parseTime h0 now
    let close0 ← parseTime h1 now
    let close := if close0.hour < open_.hour then close0.add (time.Hour * 24) else close0
    let (openTime, closeTime) :=
      if !twentyFourHours then (some open_, some close) else (none, none)
    pure { IsOpen := twentyFourHours || (now.after open_ && now.before close)
           OpenTime := openTime
           CloseTime := closeTime }
  | _ => .error (.panic "index out of range")

/-! ## Decoded JSON -/

/-- A JSON document as `encoding/json` sees it. A number literal without fraction or
exponent is `int`, any other number literal is `num`; an object keeps its members in
document order, duplicates included. -/
inductive JSON where
  | null
  | bool (b : Bool)
  | int (n : Int)
  | num (q : ℚ)
  | str (s : String)
  | arr (xs : List JSON)
  | obj (kvs : List (String × JSON))

namespace JSON

/-- Last member named `k`, the one a Go map decoded from the object holds. -/
def lookup (k : String) : List (String × JSON) → Option JSON
  | [] => none
  | (key, v) :: rest =>
    match lookup k rest with
    | some w => some w
    | none => if key = k then some v else none

/-- Map indexing `m[k]` on a decoded `map[string]interface{}`: `nil` when absent. -/
def index (m : List (String × JSON)) (k : String) : JSON :=
  (lookup k m).getD .null

/-- Type assertion `x.(map[string]interface{})`. -/
def assertObject : JSON → Except Fault (List (String × JSON))
  | .obj kvs => .ok kvs
  | _ => .error (.panic "interface conversion: not a map")

/-- Type assertion `x.([]interface{})`. -/
def assertArray : JSON → Except Fault (List JSON)
  | .arr xs => .ok xs
  | _ => .error (.panic "interface conversion: not a slice")

/-- Type assertion `x.(float64)`: every JSON number decodes to a `float64`. -/
def assertFloat : JSON → Except Fault ℚ
  | .int n => .ok n
  | .num q => .ok q
  | _ => .error (.panic "interface conversion: not float64")

/-- Type assertion `x.(string)`. -/
def assertString : JSON → Except Fault String
  | .str s => .ok s
  | _ => .error (.panic "interface conversion: not string")

mutual

/-- Every number literal of the document is within the range of `float64`. -/
def fitsFloat64 : JSON → Bool
  | .int n => !overflowsFloat64 n
  | .num q => !overflowsFloat64 q
  | .arr xs => fitsList xs
  | .obj kvs => fitsMembers kvs
  | _ => true

/-- Every number literal of the elements is within the range of `float64`. -/
def fitsList : List JSON → Bool
  | [] => true
  | x :: xs => fitsFloat64 x && fitsList xs

/-- Every number literal of the members is within the range of `float64`. -/
def fitsMembers : List (String × JSON) → Bool
  | [] => true
  | (_, v) :: rest => fitsFloat64 v && fitsMembers rest

end

/-- Slice indexing `xs[i]`. -/
def elemAt (xs : List JSON) (i : Nat) : Except Fault JSON :=
  match xs[i]? with
  | some x => .ok x
  | none => .error (.panic "index out of range")

end JSON

/-- `json.Unmarshal(body, &data)` for `data map[string]interface{}`; `none` is a body
that is not JSON. Every number of the document is decoded to a `float64`, so a literal
beyond its range is an error. A top-level `null` leaves the map nil, any other
non-object is a type error. -/
def unmarshalMap : Option JSON → Except Fault (List (String × JSON))
  | none => .error (.error "invalid character")
  | some (.obj kvs) =>
    if JSON.fitsMembers kvs then .ok kvs
    else .error (.error "json: cannot unmarshal number into Go value of type float64")
  | some .null => .ok []
  | some _ => .error (.error "json: cannot unmarshal into Go value of type map")

/-! ## `providers.go` -/

/-- The constant `kmPerMi`. -/
def kmPerMi : ℚ := 1609344 / 1000000

/-- The struct `Location` of `providers.go`. -/
structure Location where
  Type_ : String
  Address : String
  Lat : ℚ
  Lng : ℚ
  DistanceMiles : Float64
  IsOpen : Bool
  OpenTime : Option time.Time
  CloseTime : Option time.Time
  deriving DecidableEq, Repr

/-- The constant `TypeMcDonalds`. -/
def TypeMcDonalds : String := "mcdonalds"

/-- The variable `AllProviders`. -/
def AllProviders : List String := [TypeMcDonalds]

/-! ## `mcdonalds.go` -/

/-- A `geo.Point`. -/
structure Point where
  lat : ℚ
  lng : ℚ
  deriving DecidableEq, Repr

/-- The struct `params` that fills the URL template. -/
structure params where
  Lat : ℚ
  Lng : ℚ
  RadiusKm : ℚ
  MaxResults : Int

namespace http

/-- An `*http.Response`, reduced to what `ioutil.ReadAll(resp.Body)` returns: a read
error or the body, `none` being a body that is not JSON. -/
structure Response where
  ReadAll : Except String (Option JSON)

end http

/-- Everything `mcdonalds.go` takes from outside the repository. -/
structure Env where
  /-- The method `(*geo.Point).GreatCircleDistance`: the haversine formula in `float64`,
  which gives not-a-number when rounding takes its square root below zero. -/
  GreatCircleDistance : Point → Point → Float64
  /-- The function `latlong.LookupZoneName`; the empty string is "no zone found". -/
  LookupZoneName : ℚ → ℚ → String
  /-- The zone database behind `time.LoadLocation`; `none` is a zone that fails to load. -/
  zoneinfo : String → Option time.Location
  /-- The wall clock: the instant the k-th call of `time.Now()` returns. -/
  Now : Nat → Int
  /-- The function `strings.Title`. -/
  Title : String → String
  /-- The function `strings.ToLower`. -/
  ToLower : String → String
  /-- The URL the template renders for the parameters. -/
  Execute : params → String
  /-- The function `http.Get`. -/
  Get : String → Except String http.Response

/-- `tLoc, _ := time.LoadLocation(tz)`: the names "" and "UTC" give UTC, any other name
is looked up; on an error the returned pointer is nil (`none`). -/
def LoadLocation (env : Env) (tz : String) : Option time.Location :=
  if tz = "" ∨ tz = "UTC" then some time.UTC else env.zoneinfo tz

/-- `time.Now().In(tLoc)`: `In` panics on a nil location. -/
def nowIn (now : Int) : Option time.Location → Except Fault time.Time
  | some l => .ok ⟨now, l⟩
  | none => .error (.panic "time: missing Location in call to Time.In")

/-- `min(x, y)`. -/
def min (x y : Int) : Int := if x < y then x else y

/-- `math.Round`: to the nearest integer, halves away from zero. -/
def mathRound (x : ℚ) : ℚ := if 0 ≤ x then ⌊x + 1 / 2⌋ else -⌊-x + 1 / 2⌋

/-- `round(x, places)`; a not-a-number stays one. -/
def round (x : Float64) (places : Int) : Float64 :=
  match x with
  | .nan => .nan
  | .val q =>
    let p := (10 : ℚ) ^ places
    .val (mathRound (q * p) / p)

/-- The loop over `filterType`: stops at the first "DRIVETHRU"; an element that is not
a string panics in `t.(string)`. -/
def driveThruLoop : List JSON → Except Fault Bool
  | [] => .ok false
  | t :: ts =>
    match t with
    | .str s => if s = "DRIVETHRU" then .ok true else driveThruLoop ts
    | _ => .error (.panic "interface conversion: not string")

/-- One iteration of the loop of `filterResults` (lines 80-132) over the feature `f`,
`now` being what `time.Now()` returns in it: `none` is `continue`, `some l` is the
appended record. -/
def processFeature (env : Env) (from_ : Point) (now : Int) (f : JSON) :
    Except Fault (Option Location) := do
  let loc ← JSON.assertObject f
  let props ← JSON.assertObject (JSON.index loc "properties")
  let filterType ← JSON.assertArray (JSON.index props "filterType")
  let driveThru ← driveThruLoop filterType
  if !driveThru then
    return none
  let geom ← JSON.assertObject (JSON.index loc "geometry")
  let coords ← JSON.assertArray (JSON.index geom "coordinates")
  let lat ← JSON.assertFloat (← JSON.elemAt coords 1)
  let lng ← JSON.assertFloat (← JSON.elemAt coords 0)
  let distanceM := env.GreatCircleDistance from_ ⟨lat, lng⟩
  let address := env.Title (env.ToLower (← JSON.assertString (JSON.index props "addressLine1")))
  let tz := env.LookupZoneName lat lng
  let tLoc := LoadLocation env tz
  let now ← nowIn now tLoc
  let st ← openStatus (← JSON.assertString (JSON.index props "driveTodayHours")) now
  return some
    { Type_ := TypeMcDonalds
      Address := address
      Lat := lat
      Lng := lng
      DistanceMiles := round (distanceM.divConst kmPerMi) 2
      IsOpen := st.IsOpen
      OpenTime := st.OpenTime
      CloseTime := st.CloseTime }

/-- The `for _, f := range features` loop of `filterResults`; the k-th call of
`time.Now()` happens while `locs` holds k records. -/
def featureLoop (env : Env) (from_ : Point) : List JSON → List Location →
    Except Fault (List Location)
  | [], locs => .ok locs
  | f :: fs, locs =>
    match processFeature env from_ (env.Now locs.length) f with
    | .error e => .error e
    | .ok none => featureLoop env from_ fs locs
    | .ok (some l) => featureLoop env from_ fs (locs ++ [l])

/-- One pass of the inner loop of an insertion sort: `x` moves left past every
element it is `less` than. The list is the sorted prefix, last element first. -/
def bubble {α : Type} (less : α → α → Bool) (x : α) : List α → List α
  | [] => [x]
  | y :: ys => if less x y then y :: bubble less x ys else x :: y :: ys

/-- `sort.Slice(xs, less)` as the insertion sort the library runs on short slices. -/
def sortSlice {α : Type} (less : α → α → Bool) (xs : List α) : List α :=
  (xs.foldl (fun sorted x => bubble less x sorted) []).reverse

/-- The `less` closure handed to `sort.Slice` in `filterResults`. -/
def lessDistance (a b : Location) : Bool := a.DistanceMiles.lt b.DistanceMiles

/-- `(*mcDonalds).filterResults(body, from)`. -/
def filterResults (env : Env) (body : Option JSON) (from_ : Point) :
    Except Fault (List Location) := do
  let data ← unmarshalMap body
  let features ←
    match JSON.index data "features" with
    | .arr xs => pure xs
    | _ => throw (Fault.error "Missing data from API")
  let locs ← featureLoop env from_ features []
  return sortSlice lessDistance locs

/-- `(*mcDonalds).GetLocations(lat, lng, radiusMi, maxResults)`; slicing `locs[:k]`
with a negative `k` panics. -/
def GetLocations (env : Env) (lat lng radiusMi : ℚ) (maxResults : Int) :
    Except Fault (List Location) := do
  let params : params :=
    { Lat := lat, Lng := lng, RadiusKm := radiusMi * kmPerMi, MaxResults := maxResults }
  let url := env.Execute params
  let resp ←
    match env.Get url with
    | .ok r => pure r
    | .error e => throw (Fault.error e)
  let body ←
    match resp.ReadAll with
    | .ok b => pure b
    | .error e => throw (Fault.error e)
  let locs ← filterResults env body ⟨lat, lng⟩
  let k := min locs.length maxResults
  if k < 0 then
    throw (Fault.panic "slice bounds out of range")
  return locs.take k.toNat

/-! ## Well-formed inputs -/

/-- Two-digit decimal text of `n`. -/
def twoDigits (n : Nat) : List Char := [Nat.digitChar (n / 10), Nat.digitChar (n % 10)]

/-- The text "HH:MM" of a time of day. -/
def clockText (h m : Nat) : String := ⟨twoDigits h ++ ':' :: twoDigits m⟩

/-- The text "HH:MM - HH:MM" of opening hours. -/
def hoursText (h1 m1 h2 m2 : Nat) : String :=
  ⟨(clockText h1 m1).data ++ " - ".data ++ (clockText h2 m2).data⟩

/-! ## Features as the loop of `filterResults` reads them -/

/-- The value of `properties.filterType` in the feature `f`, empty when it is not there. -/
def filterTypeOf (f : JSON) : List JSON :=
  match f with
  | .obj loc =>
    match JSON.index loc "properties" with
    | .obj props =>
      match JSON.index props "filterType" with
      | .arr ts => ts
      | _ => []
    | _ => []
  | _ => []

/-- The feature `f` lists the tag "DRIVETHRU" in `properties.filterType`. -/
def hasDriveThruTag (f : JSON) : Bool :=
  (filterTypeOf f).any fun t =>
    match t with
    | .str s => s == "DRIVETHRU"
    | _ => false

/-- The feature `f` is an object whose `properties.filterType` is the list of strings
`tags`; nothing is asked of its other members. -/
def HasTags (f : JSON) (tags : List String) : Prop :=
  ∃ loc props, f = .obj loc ∧ JSON.index loc "properties" = .obj props ∧
    JSON.index props "filterType" = .arr (tags.map .str)

/-- The members a drive-thru feature is read for, besides its tags. -/
structure Fields where
  lat : ℚ
  lng : ℚ
  addressLine1 : String
  driveTodayHours : String

/-- The feature `f` has `geometry.coordinates` holding the numbers `x.lng`, `x.lat` (in
this order) and the strings `properties.addressLine1`, `properties.driveTodayHours`. -/
def HasFields (f : JSON) (x : Fields) : Prop :=
  ∃ loc props geom coords latJ lngJ,
    f = .obj loc ∧ JSON.index loc "properties" = .obj props ∧
    JSON.index loc "geometry" = .obj geom ∧ JSON.index geom "coordinates" = .arr coords ∧
    coords[1]? = some latJ ∧ coords[0]? = some lngJ ∧
    JSON.assertFloat latJ = .ok x.lat ∧ JSON.assertFloat lngJ = .ok x.lng ∧
    JSON.index props "addressLine1" = .str x.addressLine1 ∧
    JSON.index props "driveTodayHours" = .str x.driveTodayHours

/-- The text is "HH:MM - HH:MM" with hours in 0..23 and minutes in 0..59. -/
def WellFormedHours (s : String) : Prop :=
  ∃ h1 m1 h2 m2, h1 < 24 ∧ m1 < 60 ∧ h2 < 24 ∧ m2 < 60 ∧ s = hoursText h1 m1 h2 m2

/-- A well-formed feature: its tags are a list of strings and, when "DRIVETHRU" is among
them, it has its coordinates, its address line and a well-formed hours text. -/
def WellFormed (f : JSON) : Prop :=
  ∃ tags, HasTags f tags ∧
    ("DRIVETHRU" ∈ tags → ∃ x, HasFields f x ∧ WellFormedHours x.driveTodayHours)

/-- The zone name found for the coordinates of each drive-thru feature of `fs` loads. -/
def ZonesLoad (env : Env) (fs : List JSON) : Prop :=
  ∀ f ∈ fs, hasDriveThruTag f = true → ∀ x, HasFields f x →
    (LoadLocation env (env.LookupZoneName x.lat x.lng)).isSome

/-- The features of a response body, none when it has no list of them. -/
def featuresOf : Option JSON → List JSON
  | some (.obj data) =>
    match JSON.index data "features" with
    | .arr xs => xs
    | _ => []
  | _ => []

/-- The record the loop builds from `f` at the instant `now`, if it builds one. -/
def recordOf (env : Env) (from_ : Point) (now : Int) (f : JSON) : Option Location :=
  match processFeature env from_ now f with
  | .ok (some l) => some l
  | _ => none

/-- The records of the drive-thru features of `fs`, in the order of `fs`, the k-th of
them built at the k-th reading of the clock. -/
def builtRecords (env : Env) (from_ : Point) (fs : List JSON) : List Location :=
  ((fs.filter hasDriveThruTag).enum).filterMap fun kf => recordOf env from_ (env.Now kf.1) kf.2

/-! ## `find_drivethrus.go` -/

/-- The struct `Request`; a nil `Types` is the empty list. -/
structure Request where
  Lat : ℚ
  Lng : ℚ
  DistanceMiles : ℚ
  MaxResults : Int
  ShowClosed : Bool
  Types : List String
  deriving DecidableEq, Repr

/-- The struct `Response`. -/
structure Response where
  Locations : List Location
  Errors : List String
  deriving DecidableEq, Repr

/-- The interface `Provider`. -/
structure Provider where
  GetLocations : ℚ → ℚ → ℚ → Int → Except Fault (List Location)

/-- The map `providerMap` that `init` fills: one entry, for `TypeMcDonalds`. -/
def providerMap (env : Env) (pType : String) : Option Provider :=
  if pType = TypeMcDonalds then some ⟨GetLocations env⟩ else none

/-- The keys of `providerMap`, as `range` visits them. -/
def providerKeys : List String := [TypeMcDonalds]

/-- JSON-schema type "number". -/
def isNumber : JSON → Bool
  | .int _ => true
  | .num _ => true
  | _ => false

/-- The numeric value of a JSON number. -/
def numberValue : JSON → ℚ
  | .int n => n
  | .num q => q
  | _ => 0

/-- JSON-schema type "integer": a number with an integral value. -/
def isInteger : JSON → Bool
  | .int _ => true
  | .num q => decide (q.den = 1)
  | _ => false

/-- A member of the request that is absent passes; one that is present must satisfy `p`. -/
def property (doc : List (String × JSON)) (name : String) (p : JSON → Bool) : Bool :=
  match JSON.lookup name doc with
  | none => true
  | some v => p v

/-- The items of `types`: strings out of the enumeration `AllProviders`. -/
def typesItems : List JSON → Option (List String)
  | [] => some []
  | .str s :: rest =>
    if s ∈ AllProviders then (typesItems rest).map (s :: ·) else none
  | _ :: _ => none

/-- Validation against `requestSchemaJSON`: an object with `lat` and `lng`, each listed
property within its type and bounds when present, other members unconstrained. -/
def schemaValid : JSON → Bool
  | .obj doc =>
    (JSON.lookup "lat" doc).isSome && (JSON.lookup "lng" doc).isSome &&
    property doc "lat" (fun v => isNumber v && decide (-90 ≤ numberValue v) &&
      decide (numberValue v ≤ 90)) &&
    property doc "lng" (fun v => isNumber v && decide (-180 ≤ numberValue v) &&
      decide (numberValue v ≤ 180)) &&
    property doc "distance_miles" (fun v => isNumber v && decide (0 < numberValue v) &&
      decide (numberValue v ≤ 25)) &&
    property doc "max_results" (fun v => isInteger v && decide (1 ≤ numberValue v) &&
      decide (numberValue v ≤ 30)) &&
    property doc "show_closed" (fun v => match v with | .bool _ => true | _ => false) &&
    property doc "types" (fun v =>
      match v with
      | .arr items =>
        match typesItems items with
        | some ts => decide ts.Nodup
        | none => false
      | _ => false)
  | _ => false

/-- The fields of `Request`. -/
inductive Field where
  | Lat | Lng | DistanceMiles | MaxResults | ShowClosed | Types
  deriving DecidableEq, Repr

/-- The JSON name of each field of `Request`, from its struct tag. -/
def fieldNames : List (String × Field) :=
  [("lat", .Lat), ("lng", .Lng), ("distance_miles", .DistanceMiles),
   ("max_results", .MaxResults), ("show_closed", .ShowClosed), ("types", .Types)]

/-- Case folding of `encoding/json`: upper-case letters, the Kelvin sign and the long s
fold to their lower-case letter. -/
def foldChar (c : Char) : Char :=
  if c = Char.ofNat 0x212A then 'k' else if c = Char.ofNat 0x17F then 's' else c.toLower

/-- The key and the field name are equal under case folding. -/
def equalFold (key name : String) : Bool :=
  decide (key.data.map foldChar = name.data.map foldChar)

/-- The field of `Request` an object key is decoded into: an exact match of the name is
preferred, a case-insensitive match is accepted too; other keys are skipped. -/
def findField (key : String) : Option Field :=
  match fieldNames.find? (fun nf => nf.1 = key) with
  | some nf => some nf.2
  | none => (fieldNames.find? (fun nf => equalFold key nf.1)).map (·.2)

/-- Decoding a JSON array into a `[]string`; a null element stays the zero value. -/
def decodeStrings : List JSON → Except String (List String)
  | [] => .ok []
  | .str s :: rest => (decodeStrings rest).map (s :: ·)
  | .null :: rest => (decodeStrings rest).map ("" :: ·)
  | _ :: _ => .error "json: cannot unmarshal into Go struct field Request.types of type string"

/-- Decoding a number into a `float64` field: a literal beyond its range is an error. -/
def decodeFloat (q : ℚ) : Except String ℚ :=
  if overflowsFloat64 q then
    .error "json: cannot unmarshal number into Go struct field of type float64"
  else .ok q

/-- Decoding the value `v` into one field of `req`: `null` leaves a scalar field as it
is and makes a slice nil, a value of the wrong JSON type is an error. -/
def decodeField (req : Request) : Field → JSON → Except String Request
  | .Lat, .null => .ok req
  | .Lat, .int n => (decodeFloat n).map fun x => { req with Lat := x }
  | .Lat, .num q => (decodeFloat q).map fun x => { req with Lat := x }
  | .Lng, .null => .ok req
  | .Lng, .int n => (decodeFloat n).map fun x => { req with Lng := x }
  | .Lng, .num q => (decodeFloat q).map fun x => { req with Lng := x }
  | .DistanceMiles, .null => .ok req
  | .DistanceMiles, .int n => (decodeFloat n).map fun x => { req with DistanceMiles := x }
  | .DistanceMiles, .num q => (decodeFloat q).map fun x => { req with DistanceMiles := x }
  | .MaxResults, .null => .ok req
  | .MaxResults, .int n =>
    if minInt ≤ n ∧ n ≤ maxInt then .ok { req with MaxResults := n }
    else .error "json: cannot unmarshal number into Go struct field Request.max_results of type int"
  | .ShowClosed, .null => .ok req
  | .ShowClosed, .bool b => .ok { req with ShowClosed := b }
  | .Types, .null => .ok { req with Types := [] }
  | .Types, .arr xs => (decodeStrings xs).map fun ts => { req with Types := ts }
  | _, _ => .error "json: cannot unmarshal into Go struct field of Request"

/-- The members of the object are decoded in document order, each into the field its
key selects. -/
def decodeMembers : List (String × JSON) → Request → Except String Request
  | [], req => .ok req
  | (key, v) :: rest, req =>
    match findField key with
    | none => decodeMembers rest req
    | some field =>
      match decodeField req field v with
      | .ok req2 => decodeMembers rest req2
      | .error e => .error e

/-- `json.Unmarshal([]byte(body), &req)` for the zero `req`. -/
def unmarshalRequest : JSON → Except String Request
  | .obj doc => decodeMembers doc ⟨0, 0, 0, 0, false, []⟩
  | .null => .ok ⟨0, 0, 0, 0, false, []⟩
  | _ => .error "json: cannot unmarshal into Go value of type main.Request"

/-- `validateRequest(body)`; `none` is a body that is not JSON. -/
def validateRequest (body : Option JSON) : Except String Request :=
  match body with
  | none => .error "invalid character"
  | some doc =>
    if !schemaValid doc then .error "[schema violations]"
    else
      match unmarshalRequest doc with
      | .error e => .error e
      | .ok req =>
        let req := if req.DistanceMiles = 0 then { req with DistanceMiles := 5 } else req
        let req := if req.MaxResults = 0 then { req with MaxResults := 30 } else req
        let req := if req.Types.length = 0 then { req with Types := providerKeys } else req
        .ok req

/-- The loop of `handler` over `request.Types` (lines 139-147): a failing provider adds
its message to `errs`, a successful one its locations to `locations`. A type without an
entry in the map gives a nil provider, whose call panics. -/
def handlerLoop (providers : String → Option Provider) (request : Request) :
    List String → List Location → List String → Except Fault Response
  | [], locations, errs => .ok ⟨locations, errs⟩
  | pType :: rest, locations, errs =>
    match providers pType with
    | none => .error (.panic "invalid memory address or nil pointer dereference")
    | some provider =>
      match provider.GetLocations request.Lat request.Lng request.DistanceMiles
          request.MaxResults with
      | .ok pLocs => handlerLoop providers request rest (locations ++ pLocs) errs
      | .error (.error msg) => handlerLoop providers request rest locations (errs ++ [msg])
      | .error (.panic msg) => .error (.panic msg)

/-- The outcome of `handler`: the status code and, with 200, the response it marshals. -/
structure Reply where
  StatusCode : Nat
  Body : Except String Response

/-- `handler(gwRequest)` on the request body. -/
def handler (env : Env) (body : Option JSON) : Except Fault Reply :=
  match validateRequest body with
  | .error e => .ok ⟨400, .error e⟩
  | .ok request =>
    match handlerLoop (providerMap env) request request.Types [] [] with
    | .ok response => .ok ⟨200, .ok response⟩
    | .error e => .error e

/-- What one provider call comes to in the aggregation: locations or a message. -/
def liftOutcome : Except String (List Location) → Except Fault (List Location)
  | .ok locs => .ok locs
  | .error msg => .error (.error msg)

/-- The locations of a successful outcome. -/
def successOf : Except String (List Location) → Option (List Location)
  | .ok locs => some locs
  | .error _ => none

/-- The message of a failed outcome. -/
def failureOf : Except String (List Location) → Option String
  | .ok _ => none
  | .error msg => some msg

/-! ## A concrete response and environments -/

/-- A feature of the upstream response with the given latitude, tags and hours text. -/
def exampleFeature (lat : ℚ) (tags : List String) (hours : String) : JSON :=
  .obj [("geometry", .obj [("coordinates", .arr [.num (-73), .num lat])]),
        ("properties", .obj [("filterType", .arr (tags.map .str)),
          ("addressLine1", .str "1 MAIN ST"), ("driveTodayHours", .str hours)])]

/-- The features of `exampleBody`: two with a drive-thru, the farther one first, and
between them one that has nothing but tags, none of them the drive-thru tag. -/
def exampleFeatures : List JSON :=
  [exampleFeature 42 ["DRIVETHRU"] "20:00 - 04:00",
   .obj [("properties", .obj [("filterType", .arr [.str "WIFI"])])],
   exampleFeature 41 ["WIFI", "DRIVETHRU"] "05:00 - 05:00"]

/-- A response body with three features. -/
def exampleBody : JSON := .obj [("features", .arr exampleFeatures)]

/-- An environment whose upstream answers with `exampleBody`, with one loadable zone,
five hours west of UTC, and a clock that stands at 01:00 local time of day 17000. -/
def exampleEnv : Env where
  GreatCircleDistance := fun a b => .val (111 * (|a.lat - b.lat| + |a.lng - b.lng|))
  LookupZoneName := fun _ _ => "America/New_York"
  zoneinfo := fun n => if n = "America/New_York" then some ⟨n, -18000⟩ else none
  Now := fun _ => (time.Date 17000 1 0 ⟨"America/New_York", -18000⟩).ns
  Title := id
  ToLower := id
  Execute := fun _ => "https://www.mcdonalds.com/"
  Get := fun _ => .ok ⟨.ok (some exampleBody)⟩

/-- The same environment on a host whose zone database has no zone to load. -/
def brokenZoneEnv : Env := { exampleEnv with zoneinfo := fun _ => none }

/-- The same environment with coordinates for which no zone is found. -/
def unknownZoneEnv : Env := { exampleEnv with LookupZoneName := fun _ _ => "" }

/-- The record of the nearer drive-thru feature of `exampleBody`, open around the clock. -/
def exampleNear : Location :=
  { Type_ := "mcdonalds", Address := "1 MAIN ST", Lat := 41, Lng := -73,
    DistanceMiles := .val (6897 / 100), IsOpen := true, OpenTime := none, CloseTime := none }

/-- The record of the farther drive-thru feature of `exampleBody`, with overnight hours,
built at 01:00 local time in the zone `loc`. -/
def exampleFar (loc : time.Location) : Location :=
  { Type_ := "mcdonalds", Address := "1 MAIN ST", Lat := 42, Lng := -73,
    DistanceMiles := .val (6897 / 50), IsOpen := false
    OpenTime := some ⟨((17000 * 86400 + 20 * 3600) - loc.offset) * 1000000000, loc⟩
    CloseTime := some ⟨((17001 * 86400 + 4 * 3600) - loc.offset) * 1000000000, loc⟩ }

/-- A request for two provider types. -/
def exampleRequest : Request :=
  { Lat := 40, Lng := -73, DistanceMiles := 5, MaxResults := 30, ShowClosed := false
    Types := ["wendys", "mcdonalds"] }

/-- A registry of two providers: "wendys" fails, "mcdonalds" finds one location. -/
def exampleProviders (pType : String) : Option Provider :=
  if pType = "wendys" then some ⟨fun _ _ _ _ => .error (.error "connection refused")⟩
  else if pType = "mcdonalds" then some ⟨fun _ _ _ _ => .ok [exampleNear]⟩
  else none

/-- The outcomes of the providers of `exampleProviders`. -/
def exampleOutcome (pType : String) : Except String (List Location) :=
  if pType = "wendys" then .error "connection refused" else .ok [exampleNear]

/-- A drive-thru feature that has everything but `driveTodayHours`. -/
def featureWithoutHours : JSON :=
  .obj [("geometry", .obj [("coordinates", .arr [.num (-73), .num 41])]),
        ("properties", .obj [("filterType", .arr [.str "DRIVETHRU"]),
          ("addressLine1", .str "1 MAIN ST")])]

/-- A feature that has its tags, none of them the drive-thru tag, and no `geometry`. -/
def featureWithoutGeometry : JSON :=
  .obj [("properties", .obj [("filterType", .arr [.str "WIFI"])])]

/-- The request body with `lat` 1.0, `lng` -2.0 and `types` holding "mcdonalds". -/
def exampleRequestBody : JSON :=
  .obj [("lat", .num 1), ("lng", .num (-2)), ("types", .arr [.str "mcdonalds"])]

/-- A request body that also spells two members with capitals: `Lat` 500 and
`Distance_Miles` 100. -/
def capitalisedRequestBody : JSON :=
  .obj [("lat", .num 1), ("lng", .num (-2)), ("Lat", .int 500), ("Distance_Miles", .int 100)]

/-- A drive-thru feature at the point (-40, 107), the antipode of (40, -73). -/
def antipodeFeature : JSON :=
  .obj [("geometry", .obj [("coordinates", .arr [.num 107, .num (-40)])]),
        ("properties", .obj [("filterType", .arr [.str "DRIVETHRU"]),
          ("addressLine1", .str "2 FAR ST"), ("driveTodayHours", .str "05:00 - 05:00")])]

/-- Three drive-thru features, open around the clock: one degree north of (40, -73), at
its antipode, and a hundredth of a degree north of it. -/
def antipodeFeatures : List JSON :=
  [exampleFeature 41 ["DRIVETHRU"] "05:00 - 05:00", antipodeFeature,
   exampleFeature (4001 / 100) ["DRIVETHRU"] "05:00 - 05:00"]

/-- A response body with the features `antipodeFeatures`. -/
def antipodeBody : JSON :=
  .obj [("features", .arr antipodeFeatures)]

/-- The environment `exampleEnv` with a distance routine that gives not-a-number at the
antipode of the query point and 111.19 km for a degree elsewhere. -/
def antipodeEnv : Env :=
  { exampleEnv with
    GreatCircleDistance := fun a b =>
      if b.lat = -a.lat ∧ |b.lng - a.lng| = 180 then .nan
      else .val (11119 / 100 * (|a.lat - b.lat| + |a.lng - b.lng|)) }

/-- The record of a drive-thru feature of `antipodeBody`, open around the clock. -/
def antipodeRecord (address : String) (lat lng : ℚ) (distance : Float64) : Location :=
  { Type_ := "mcdonalds", Address := address, Lat := lat, Lng := lng,
    DistanceMiles := distance, IsOpen := true, OpenTime := none, CloseTime := none }

/-- A response body without features and with a number beyond the range of `float64`:
the object whose `features` is the empty list and whose `x` is the number 1e400. -/
def overflowBody : JSON := .obj [("features", .arr []), ("x", .num ((10 : ℚ) ^ 400))]

/-- The records of `antipodeFeatures` in the order of the features, with the distances
69.09 miles, not-a-number and 0.69 miles. -/
def antipodeRecords : List Location :=
  [antipodeRecord "1 MAIN ST" 41 (-73) (.val (6909 / 100)),
   antipodeRecord "2 FAR ST" (-40) 107 .nan,
   antipodeRecord "1 MAIN ST" (4001 / 100) (-73) (.val (69 / 100))]

/-! ## Lemmas on the time model -/

theorem digitChar_ne : ∀ n < 10, Nat.digitChar n ≠ ':' ∧ Nat.digitChar n ≠ ' ' := by
  decide

theorem Split_clockText (h m : Nat) (hh : h < 100) (hm : m < 100) :
    Split (clockText h m) ":" = [⟨twoDigits h⟩, ⟨twoDigits m⟩] := by
  have e : ":".data = [':'] := rfl
  have a1 := Ne.symm (digitChar_ne (h / 10) (by omega)).1
  have a2 := Ne.symm (digitChar_ne (h % 10) (by omega)).1
  have a3 := Ne.symm (digitChar_ne (m / 10) (by omega)).1
  have a4 := Ne.symm (digitChar_ne (m % 10) (by omega)).1
  simp [Split, clockText, twoDigits, e, splitGo, List.isPrefixOf, a1, a2, a3, a4]

theorem Split_hoursText (h1 m1 h2 m2 : Nat) (hh1 : h1 < 100) (hm1 : m1 < 100)
    (hh2 : h2 < 100) (hm2 : m2 < 100) :
    Split (hoursText h1 m1 h2 m2) " - " = [clockText h1 m1, clockText h2 m2] := by
  have e : " - ".data = [' ', '-', ' '] := rfl
  have c : (' ' : Char) ≠ ':' := by decide
  have a1 := Ne.symm (digitChar_ne (h1 / 10) (by omega)).2
  have a2 := Ne.symm (digitChar_ne (h1 % 10) (by omega)).2
  have a3 := Ne.symm (digitChar_ne (m1 / 10) (by omega)).2
  have a4 := Ne.symm (digitChar_ne (m1 % 10) (by omega)).2
  have b1 := Ne.symm (digitChar_ne (h2 / 10) (by omega)).2
  have b2 := Ne.symm (digitChar_ne (h2 % 10) (by omega)).2
  have b3 := Ne.symm (digitChar_ne (m2 / 10) (by omega)).2
  have b4 := Ne.symm (digitChar_ne (m2 % 10) (by omega)).2
  simp [Split, hoursText, clockText, twoDigits, e, splitGo, List.isPrefixOf, c, a1, a2, a3, a4,
    b1, b2, b3, b4]

theorem Atoi_digits : ∀ a < 10, ∀ b < 10,
    Atoi ⟨[Nat.digitChar a, Nat.digitChar b]⟩ = ((10 * a + b : Nat) : Int) := by
  decide

theorem Atoi_twoDigits (n : Nat) (h : n < 100) : Atoi ⟨twoDigits n⟩ = (n : Int) := by
  have := Atoi_digits (n / 10) (by omega) (n % 10) (by omega)
  rw [twoDigits, this]
  congr 1
  omega

theorem parseTime_clockText (h m : Nat) (hh : h < 100) (hm : m < 100) (now : time.Time) :
    parseTime (clockText h m) now = .ok (time.Date now.localDay h m now.loc) := by
  simp [parseTime, Split_clockText h m hh hm, Atoi_twoDigits h hh, Atoi_twoDigits m hm]

theorem Date_wall (day h m : Int) (loc : time.Location) :
    (time.Date day h m loc).wall = day * 86400 + h * 3600 + m * 60 := by
  simp [time.Date, time.Time.wall, time.Second]

theorem Date_hour (day : Int) (h m : Nat) (loc : time.Location) (hh : h < 24) (hm : m < 60) :
    (time.Date day h m loc).hour = h := by
  rw [time.Time.hour, Date_wall]
  omega

theorem Date_localDay (day : Int) (h m : Nat) (loc : time.Location) (hh : h < 24)
    (hm : m < 60) : (time.Date day h m loc).localDay = day := by
  rw [time.Time.localDay, Date_wall]
  omega

theorem digitChar_inj : ∀ a < 10, ∀ b < 10, Nat.digitChar a = Nat.digitChar b → a = b := by
  decide

theorem clockText_inj (h1 m1 h2 m2 : Nat) (hh1 : h1 < 100) (hm1 : m1 < 100) (hh2 : h2 < 100)
    (hm2 : m2 < 100) (e : clockText h1 m1 = clockText h2 m2) : h1 = h2 ∧ m1 = m2 := by
  have e := congrArg String.data e
  simp only [clockText, twoDigits, List.cons_append, List.nil_append,
    List.cons.injEq, and_true, true_and] at e
  obtain ⟨e1, e2, e3, e4⟩ := e
  have := digitChar_inj _ (by omega) _ (by omega) e1
  have := digitChar_inj _ (by omega) _ (by omega) e2
  have := digitChar_inj _ (by omega) _ (by omega) e3
  have := digitChar_inj _ (by omega) _ (by omega) e4
  omega

/-- The open-status block on a well-formed hours text, in closed form. -/
theorem openStatus_hoursText (h1 m1 h2 m2 : Nat) (hh1 : h1 < 24) (hm1 : m1 < 60)
    (hh2 : h2 < 24) (hm2 : m2 < 60) (now : time.Time) :
    openStatus (hoursText h1 m1 h2 m2) now =
      .ok (if clockText h1 m1 = clockText h2 m2 then
          { IsOpen := true, OpenTime := none, CloseTime := none }
        else
          { IsOpen := now.after (time.Date now.localDay h1 m1 now.loc) &&
              now.before (if h2 < h1 then
                (time.Date now.localDay h2 m2 now.loc).add (time.Hour * 24)
                else time.Date now.localDay h2 m2 now.loc)
            OpenTime := some (time.Date now.localDay h1 m1 now.loc)
            CloseTime := some (if h2 < h1 then
                (time.Date now.localDay h2 m2 now.loc).add (time.Hour * 24)
                else time.Date now.localDay h2 m2 now.loc) }) := by
  have s := Split_hoursText h1 m1 h2 m2 (by omega) (by omega) (by omega) (by omega)
  have p1 := parseTime_clockText h1 m1 (by omega) (by omega) now
  have p2 := parseTime_clockText h2 m2 (by omega) (by omega) now
  simp only [openStatus, s, p1, p2, bind, Except.bind, pure, Except.pure,
    Date_hour _ _ _ _ hh1 hm1, Date_hour _ _ _ _ hh2 hm2, Nat.cast_lt]
  by_cases e : clockText h1 m1 = clockText h2 m2
  · simp [e]
  · simp [e]

/-! ## Lemmas on the loop body -/

theorem driveThruLoop_strings (tags : List String) :
    driveThruLoop (tags.map .str) = .ok (decide ("DRIVETHRU" ∈ tags)) := by
  induction tags with
  | nil => simp [driveThruLoop]
  | cons t ts ih =>
    by_cases e : t = "DRIVETHRU"
    · simp [driveThruLoop, e]
    · have e2 : ¬ "DRIVETHRU" = t := fun h => e h.symm
      simp [driveThruLoop, e, e2, ih]

theorem any_tag_strings (tags : List String) :
    ((tags.map JSON.str).any fun t =>
      match t with
      | .str s => s == "DRIVETHRU"
      | _ => false) = decide ("DRIVETHRU" ∈ tags) := by
  induction tags with
  | nil => simp
  | cons t ts ih =>
    by_cases e : t = "DRIVETHRU"
    · simp [e]
    · have e2 : ¬ "DRIVETHRU" = t := fun h => e h.symm
      simp only [List.map_cons, List.any_cons, ih]
      simp [e, e2]

theorem hasDriveThruTag_of_tags (f : JSON) (tags : List String) (ht : HasTags f tags) :
    hasDriveThruTag f = decide ("DRIVETHRU" ∈ tags) := by
  obtain ⟨loc, props, rfl, hp, hf⟩ := ht
  simp only [hasDriveThruTag, filterTypeOf, hp, hf]
  exact any_tag_strings tags

/-- A feature without the tag is skipped, whatever else it holds. -/
theorem processFeature_skip (env : Env) (from_ : Point) (now : Int) (f : JSON)
    (tags : List String) (ht : HasTags f tags) (hd : "DRIVETHRU" ∉ tags) :
    processFeature env from_ now f = .ok none := by
  obtain ⟨loc, props, rfl, hp, hf⟩ := ht
  simp [processFeature, JSON.assertObject, JSON.assertArray, hp, hf, driveThruLoop_strings, hd,
    bind, Except.bind, pure, Except.pure]

/-- A feature with the tag and its fields yields the record of its fields, once its
zone loads and its hours text splits. -/
theorem processFeature_fields (env : Env) (from_ : Point) (now : Int) (f : JSON)
    (tags : List String) (x : Fields) (tLoc : time.Location) (st : OpenStatus)
    (ht : HasTags f tags) (hd : "DRIVETHRU" ∈ tags) (hx : HasFields f x)
    (hz : LoadLocation env (env.LookupZoneName x.lat x.lng) = some tLoc)
    (hs : openStatus x.driveTodayHours ⟨now, tLoc⟩ = .ok st) :
    processFeature env from_ now f = .ok (some
      { Type_ := TypeMcDonalds
        Address := env.Title (env.ToLower x.addressLine1)
        Lat := x.lat
        Lng := x.lng
        DistanceMiles :=
          round ((env.GreatCircleDistance from_ ⟨x.lat, x.lng⟩).divConst kmPerMi) 2
        IsOpen := st.IsOpen
        OpenTime := st.OpenTime
        CloseTime := st.CloseTime }) := by
  obtain ⟨loc, props, rfl, hp, hf⟩ := ht
  obtain ⟨loc2, props2, geom, coords, latJ, lngJ, e, hp2, hg, hc, h1, h0, hlat, hlng, ha, hh⟩ := hx
  cases e
  rw [hp] at hp2
  cases hp2
  simp [processFeature, JSON.assertObject, JSON.assertArray, JSON.assertString, JSON.elemAt, hp,
    hf, hg, hc, h1, h0, hlat, hlng, ha, hh, hz, hs, nowIn, driveThruLoop_strings, hd,
    bind, Except.bind, pure, Except.pure]

theorem exampleFeature_tags (lat : ℚ) (tags : List String) (hours : String) :
    HasTags (exampleFeature lat tags hours) tags :=
  ⟨_, _, rfl, rfl, rfl⟩

theorem exampleFeature_fields (lat : ℚ) (tags : List String) (hours : String) :
    HasFields (exampleFeature lat tags hours) ⟨lat, -73, "1 MAIN ST", hours⟩ :=
  ⟨_, _, _, _, _, _, rfl, rfl, rfl, rfl, rfl, rfl, rfl, rfl, rfl, rfl⟩

/-! ## Opening hours -/

/-- C1. With the hours text "20:00 - 04:00" and the local time 01:00 (any day, any
zone) the open-status block makes the open instant 20:00 of the current local day and
the close instant 04:00 of the following day, and reports `IsOpen = false`: at 01:00
the current time is before the open instant of the same date. -/
theorem overnight_hours_at_one_am (day : Int) (loc : time.Location) :
    openStatus "20:00 - 04:00" (time.Date day 1 0 loc) =
      .ok { IsOpen := false
            OpenTime := some (time.Date day 20 0 loc)
            CloseTime := some (time.Date (day + 1) 4 0 loc) } ∧
    (time.Date (day + 1) 4 0 loc).localDay = (time.Date day 20 0 loc).localDay + 1 := by
  have e : ("20:00 - 04:00" : String) = hoursText 20 0 4 0 := by decide
  have ne : clockText 20 0 ≠ clockText 4 0 := by decide
  have d := Date_localDay day 1 0 loc (by omega) (by omega)
  have d1 := Date_localDay day 20 0 loc (by omega) (by omega)
  have d2 := Date_localDay (day + 1) 4 0 loc (by omega) (by omega)
  simp only [Nat.cast_ofNat, Nat.cast_zero, Nat.cast_one] at d d1 d2
  refine ⟨?_, by rw [d1, d2]⟩
  have l : (time.Date day 1 0 loc).loc = loc := rfl
  rw [e, openStatus_hoursText 20 0 4 0 (by omega) (by omega) (by omega) (by omega)]
  simp only [ne, if_false, if_true, Nat.cast_ofNat, Nat.cast_zero, d, l,
    show (4 : ℕ) < 20 by omega]
  have a : time.Time.after (time.Date day 1 0 loc) (time.Date day 20 0 loc) = false := by
    simp only [time.Time.after, time.Date, time.Second, decide_eq_false_iff_not]
    omega
  have c : (time.Date day 4 0 loc).add (time.Hour * 24) = time.Date (day + 1) 4 0 loc := by
    simp only [time.Time.add, time.Date, time.Hour, time.Second]
    congr 1
    ring
  simp only [a, c, Bool.false_and]

/-- C10. For an hours text "H1:M1 - H2:M2" with hours in 0..23, minutes in 0..59 and
H1 different from H2, the block yields both instants: the open instant is H1:M1 of the
current local day, the close instant is H2:M2 of that day, 24 hours later exactly when
H2 < H1, and the close instant is later than the open instant by less than 24 hours. -/
theorem close_follows_open_within_a_day (h1 m1 h2 m2 : Nat) (hh1 : h1 < 24) (hm1 : m1 < 60)
    (hh2 : h2 < 24) (hm2 : m2 < 60) (hne : h1 ≠ h2) (now : time.Time) :
    ∃ st o c, openStatus (hoursText h1 m1 h2 m2) now = .ok st ∧
      st.OpenTime = some o ∧ st.CloseTime = some c ∧
      o = time.Date now.localDay h1 m1 now.loc ∧
      c = (if h2 < h1 then (time.Date now.localDay h2 m2 now.loc).add (time.Hour * 24)
        else time.Date now.localDay h2 m2 now.loc) ∧
      0 < c.ns - o.ns ∧ c.ns - o.ns < 24 * time.Hour := by
  have ne : clockText h1 m1 ≠ clockText h2 m2 := fun e =>
    hne (clockText_inj h1 m1 h2 m2 (by omega) (by omega) (by omega) (by omega) e).1
  refine ⟨_, _, _, openStatus_hoursText h1 m1 h2 m2 hh1 hm1 hh2 hm2 now, ?_, ?_, rfl, rfl, ?_⟩
  · simp [ne]
  · simp [ne]
  · by_cases lt : h2 < h1
    · simp only [lt, if_true, time.Time.add, time.Date, time.Hour, time.Second]
      constructor <;> omega
    · simp only [lt, if_false, time.Date, time.Hour, time.Second]
      constructor <;> omega

theorem close_follows_open_within_a_day_witness :
    ∃ st o c, openStatus (hoursText 20 0 4 0) (time.Date 17000 1 0 time.UTC) = .ok st ∧
      st.OpenTime = some o ∧ st.CloseTime = some c ∧
      o = time.Date (time.Date 17000 1 0 time.UTC).localDay (20 : Nat) (0 : Nat) time.UTC ∧
      c = (if 4 < 20 then
          (time.Date (time.Date 17000 1 0 time.UTC).localDay (4 : Nat) (0 : Nat) time.UTC).add
            (time.Hour * 24)
        else time.Date (time.Date 17000 1 0 time.UTC).localDay (4 : Nat) (0 : Nat) time.UTC) ∧
      0 < c.ns - o.ns ∧ c.ns - o.ns < 24 * time.Hour :=
  close_follows_open_within_a_day 20 0 4 0 (by decide) (by decide) (by decide) (by decide)
    (by decide) (time.Date 17000 1 0 time.UTC)

/-- C2. For a drive-thru feature whose hours text is a well-formed "HH:MM - HH:MM", at
every instant, `filterResults` builds a Location whose `OpenTime` and `CloseTime` are
both absent exactly when the open text equals the close text, and then `IsOpen` is
true; otherwise both are present. -/
theorem open_close_absent_iff_same_text (env : Env) (from_ : Point) (now : Int) (f : JSON)
    (tags : List String) (x : Fields) (tLoc : time.Location) (h1 m1 h2 m2 : Nat)
    (ht : HasTags f tags) (hd : "DRIVETHRU" ∈ tags) (hx : HasFields f x)
    (hz : LoadLocation env (env.LookupZoneName x.lat x.lng) = some tLoc)
    (hh1 : h1 < 24) (hm1 : m1 < 60) (hh2 : h2 < 24) (hm2 : m2 < 60)
    (hhours : x.driveTodayHours = hoursText h1 m1 h2 m2) :
    ∃ l, processFeature env from_ now f = .ok (some l) ∧
      ((l.OpenTime = none ∧ l.CloseTime = none) ↔ clockText h1 m1 = clockText h2 m2) ∧
      (clockText h1 m1 = clockText h2 m2 → l.IsOpen = true) ∧
      (clockText h1 m1 ≠ clockText h2 m2 → l.OpenTime.isSome ∧ l.CloseTime.isSome) := by
  have hs := openStatus_hoursText h1 m1 h2 m2 hh1 hm1 hh2 hm2 ⟨now, tLoc⟩
  rw [← hhours] at hs
  refine ⟨_, processFeature_fields env from_ now f tags x tLoc _ ht hd hx hz hs, ?_, ?_, ?_⟩
  · by_cases e : clockText h1 m1 = clockText h2 m2 <;> simp [e]
  · intro e
    simp [e]
  · intro e
    simp [e]

theorem open_close_absent_iff_same_text_witness :
    ∃ l, processFeature exampleEnv ⟨40, -73⟩ 0
        (exampleFeature 41 ["DRIVETHRU"] "05:00 - 05:00") = .ok (some l) ∧
      ((l.OpenTime = none ∧ l.CloseTime = none) ↔ clockText 5 0 = clockText 5 0) ∧
      (clockText 5 0 = clockText 5 0 → l.IsOpen = true) ∧
      (clockText 5 0 ≠ clockText 5 0 → l.OpenTime.isSome ∧ l.CloseTime.isSome) :=
  open_close_absent_iff_same_text exampleEnv ⟨40, -73⟩ 0
    (exampleFeature 41 ["DRIVETHRU"] "05:00 - 05:00") ["DRIVETHRU"]
    ⟨41, -73, "1 MAIN ST", "05:00 - 05:00"⟩ ⟨"America/New_York", -18000⟩ 5 0 5 0
    (exampleFeature_tags _ _ _) (by decide) (exampleFeature_fields _ _ _) (by decide)
    (by decide) (by decide) (by decide) (by decide) (by decide)

/-! ## Sorting -/

theorem bubble_perm {α : Type} (less : α → α → Bool) (x : α) (l : List α) :
    (bubble less x l).Perm (x :: l) := by
  induction l with
  | nil => simp [bubble]
  | cons y ys ih =>
    by_cases h : less x y = true
    · simp only [bubble, h, if_true]
      exact (List.Perm.cons y ih).trans (List.Perm.swap x y ys)
    · simp [bubble, h]

theorem foldl_bubble_perm {α : Type} (less : α → α → Bool) (xs acc : List α) :
    (xs.foldl (fun sorted x => bubble less x sorted) acc).Perm (xs ++ acc) := by
  induction xs generalizing acc with
  | nil => simp
  | cons x xs ih =>
    simp only [List.foldl_cons, List.cons_append]
    refine (ih _).trans ?_
    exact (List.Perm.append_left xs (bubble_perm less x acc)).trans List.perm_middle

theorem sortSlice_perm {α : Type} (less : α → α → Bool) (xs : List α) :
    (sortSlice less xs).Perm xs := by
  have h := foldl_bubble_perm less xs []
  simp only [List.append_nil] at h
  exact (List.reverse_perm _).trans h

theorem Float64_le_of_lt (a b : Float64) (h : a.lt b = true) : a.le b = true := by
  cases a <;> cases b <;> simp only [Float64.lt, Float64.le, decide_eq_true_eq] at h ⊢
  · exact absurd h (by decide)
  · exact absurd h (by decide)
  · exact absurd h (by decide)
  · exact le_of_lt h

theorem Float64_le_of_not_lt (a b : Float64) (ha : a ≠ .nan) (hb : b ≠ .nan)
    (h : a.lt b = false) : b.le a = true := by
  cases a with
  | nan => exact absurd rfl ha
  | val x =>
    cases b with
    | nan => exact absurd rfl hb
    | val y =>
      simp only [Float64.lt, Float64.le, decide_eq_true_eq, decide_eq_false_iff_not] at h ⊢
      exact not_lt.1 h

theorem Float64_le_trans (a b c : Float64) (h1 : a.le b = true) (h2 : b.le c = true) :
    a.le c = true := by
  cases a <;> cases b <;> cases c <;>
    simp only [Float64.le, decide_eq_true_eq] at h1 h2 ⊢ <;>
    first
      | exact le_trans h1 h2
      | exact absurd h1 (by decide)
      | exact absurd h2 (by decide)

theorem bubble_descending (x : Location) (l : List Location)
    (hx : x.DistanceMiles ≠ .nan) (hl : ∀ y ∈ l, y.DistanceMiles ≠ .nan)
    (h : l.Pairwise fun a b => b.DistanceMiles.le a.DistanceMiles = true) :
    (bubble lessDistance x l).Pairwise fun a b => b.DistanceMiles.le a.DistanceMiles = true := by
  induction l with
  | nil => simp [bubble]
  | cons y ys ih =>
    rw [List.pairwise_cons] at h
    have hy := hl y (List.mem_cons_self y ys)
    have hys : ∀ z ∈ ys, z.DistanceMiles ≠ .nan := fun z hz => hl z (List.mem_cons_of_mem y hz)
    cases c : x.DistanceMiles.lt y.DistanceMiles with
    | true =>
      simp only [bubble, lessDistance, c, if_true, List.pairwise_cons]
      refine ⟨?_, ih hys h.2⟩
      intro z hz
      rcases List.mem_cons.1 ((bubble_perm lessDistance x ys).subset hz) with e | m
      · rw [e]
        exact Float64_le_of_lt _ _ c
      · exact h.1 z m
    | false =>
      simp only [bubble, lessDistance, c, Bool.false_eq_true, if_false, List.pairwise_cons]
      refine ⟨?_, h.1, h.2⟩
      intro z hz
      rcases List.mem_cons.1 hz with e | m
      · rw [e]
        exact Float64_le_of_not_lt _ _ hx hy c
      · exact Float64_le_trans _ _ _ (h.1 z m) (Float64_le_of_not_lt _ _ hx hy c)

theorem foldl_bubble_descending (xs acc : List Location)
    (hxs : ∀ y ∈ xs, y.DistanceMiles ≠ .nan) (hacc : ∀ y ∈ acc, y.DistanceMiles ≠ .nan)
    (h : acc.Pairwise fun a b => b.DistanceMiles.le a.DistanceMiles = true) :
    (xs.foldl (fun sorted x => bubble lessDistance x sorted) acc).Pairwise
      fun a b => b.DistanceMiles.le a.DistanceMiles = true := by
  induction xs generalizing acc with
  | nil => simpa using h
  | cons x xs ih =>
    have hx := hxs x (List.mem_cons_self x xs)
    refine ih _ (fun y hy => hxs y (List.mem_cons_of_mem x hy)) ?_
      (bubble_descending x acc hx hacc h)
    intro y hy
    rcases List.mem_cons.1 ((bubble_perm lessDistance x acc).subset hy) with e | m
    · rw [e]
      exact hx
    · exact hacc y m

/-- The sort puts records in ascending order of distance when no distance is
not-a-number. -/
theorem sortSlice_sorted (xs : List Location) (hxs : ∀ y ∈ xs, y.DistanceMiles ≠ .nan) :
    (sortSlice lessDistance xs).Pairwise
      fun a b => a.DistanceMiles.le b.DistanceMiles = true := by
  rw [sortSlice, List.pairwise_reverse]
  exact foldl_bubble_descending xs [] hxs (fun y hy => absurd hy (List.not_mem_nil y))
    List.Pairwise.nil

/-! ## The loop over the features -/

theorem driveThruLoop_any (ts : List JSON) (b : Bool) (h : driveThruLoop ts = .ok b) :
    (ts.any fun t =>
      match t with
      | .str s => s == "DRIVETHRU"
      | _ => false) = b := by
  induction ts with
  | nil =>
    simp only [driveThruLoop, Except.ok.injEq] at h
    simp [← h]
  | cons t ts ih =>
    cases t with
    | str s =>
      by_cases e : s = "DRIVETHRU"
      · simp only [driveThruLoop, e, if_true, Except.ok.injEq] at h
        simp [e, ← h]
      · simp only [driveThruLoop, e, if_false] at h
        simp [e, ih h]
    | _ => simp [driveThruLoop] at h

/-- When an iteration ends without a panic, it appended a record exactly when the
feature lists the tag. -/
theorem processFeature_tag (env : Env) (from_ : Point) (now : Int) (f : JSON)
    (r : Option Location) (h : processFeature env from_ now f = .ok r) :
    hasDriveThruTag f = r.isSome := by
  unfold processFeature at h
  simp only [bind, Except.bind, pure, Except.pure] at h
  cases f with
  | obj loc =>
    simp only [JSON.assertObject] at h
    generalize hp : JSON.index loc "properties" = p at h
    cases p with
    | obj props =>
      simp only [JSON.assertArray] at h
      generalize hf : JSON.index props "filterType" = q at h
      cases q with
      | arr ts =>
        simp only at h
        generalize hb : driveThruLoop ts = b at h
        cases b with
        | error e => simp at h
        | ok b =>
          have ha := driveThruLoop_any ts b hb
          simp only [hasDriveThruTag, filterTypeOf, hp, hf, ha]
          cases b with
          | false =>
            simp only [Bool.not_false, if_true, Except.ok.injEq] at h
            simp [← h]
          | true =>
            simp only [Bool.not_true, Bool.false_eq_true, if_false] at h
            repeat' (split at h <;> try (simp at h; done))
            simp only [Except.ok.injEq] at h
            simp [← h]
      | _ => simp at h
    | _ => simp at h
  | _ => simp [JSON.assertObject] at h

theorem recordOf_of_ok (env : Env) (from_ : Point) (now : Int) (f : JSON) (l : Location)
    (h : processFeature env from_ now f = .ok (some l)) : recordOf env from_ now f = some l := by
  simp [recordOf, h]

/-- What the loop returns when no iteration panics: the records it started with, then
one record for each feature that lists the tag, in order. -/
theorem featureLoop_built (env : Env) (from_ : Point) (fs : List JSON) :
    ∀ locs out, featureLoop env from_ fs locs = .ok out →
      out = locs ++ ((fs.filter hasDriveThruTag).enumFrom locs.length).filterMap
        (fun kf => recordOf env from_ (env.Now kf.1) kf.2) ∧
      (((fs.filter hasDriveThruTag).enumFrom locs.length).filterMap
        (fun kf => recordOf env from_ (env.Now kf.1) kf.2)).length =
        (fs.filter hasDriveThruTag).length := by
  induction fs with
  | nil =>
    intro locs out h
    simp only [featureLoop, Except.ok.injEq] at h
    simp [h]
  | cons f fs ih =>
    intro locs out h
    rw [featureLoop] at h
    generalize hp : processFeature env from_ (env.Now locs.length) f = p at h
    cases p with
    | error e => simp at h
    | ok r =>
      have tag := processFeature_tag env from_ _ f r hp
      cases r with
      | none =>
        simp only [Option.isSome_none] at tag
        simp only at h
        simpa [List.filter_cons, tag] using ih locs out h
      | some l =>
        simp only [Option.isSome_some] at tag
        simp only at h
        have step := ih (locs ++ [l]) out h
        simp only [List.length_append, List.length_singleton] at step
        have rec := recordOf_of_ok env from_ _ f l hp
        simp only [List.filter_cons, tag, if_true, List.enumFrom_cons, List.filterMap_cons, rec,
          List.length_cons]
        refine ⟨?_, by rw [step.2]⟩
        rw [step.1]
        simp

/-- The loop does not panic on well-formed features whose zones load. -/
theorem featureLoop_wellFormed (env : Env) (from_ : Point) (fs : List JSON)
    (hw : ∀ f ∈ fs, WellFormed f) (hz : ZonesLoad env fs) :
    ∀ locs, ∃ out, featureLoop env from_ fs locs = .ok out := by
  induction fs with
  | nil =>
    intro locs
    exact ⟨locs, rfl⟩
  | cons f fs ih =>
    intro locs
    have ih2 := ih (fun g hg => hw g (List.mem_cons_of_mem f hg))
      (fun g hg => hz g (List.mem_cons_of_mem f hg))
    obtain ⟨tags, ht, hrest⟩ := hw f (List.mem_cons_self f fs)
    by_cases hd : "DRIVETHRU" ∈ tags
    · obtain ⟨x, hx, h1, m1, h2, m2, hh1, hm1, hh2, hm2, hhours⟩ := hrest hd
      have htag : hasDriveThruTag f = true := by
        rw [hasDriveThruTag_of_tags f tags ht]
        exact decide_eq_true hd
      have hl := hz f (List.mem_cons_self f fs) htag x hx
      obtain ⟨tLoc, hl⟩ := Option.isSome_iff_exists.1 hl
      have hs := openStatus_hoursText h1 m1 h2 m2 hh1 hm1 hh2 hm2 ⟨env.Now locs.length, tLoc⟩
      rw [← hhours] at hs
      have hp := processFeature_fields env from_ (env.Now locs.length) f tags x tLoc _ ht hd hx
        hl hs
      rw [featureLoop, hp]
      exact ih2 _
    · have hp := processFeature_skip env from_ (env.Now locs.length) f tags ht hd
      rw [featureLoop, hp]
      exact ih2 _

theorem filterResults_ok (env : Env) (body : Option JSON) (from_ : Point) (out : List Location)
    (h : filterResults env body from_ = .ok out) :
    ∃ built, featureLoop env from_ (featuresOf body) [] = .ok built ∧
      out = sortSlice lessDistance built := by
  unfold filterResults at h
  simp only [bind, Except.bind, pure, Except.pure] at h
  cases body with
  | none => simp [unmarshalMap] at h
  | some doc =>
    cases doc with
    | obj data =>
      simp only [unmarshalMap, featuresOf] at h ⊢
      cases hfit : JSON.fitsMembers data with
      | false => simp [hfit] at h
      | true =>
        simp only [hfit, if_true] at h
        generalize JSON.index data "features" = v at h ⊢
        cases v with
        | arr xs =>
          simp only at h ⊢
          generalize featureLoop env from_ xs [] = r at h ⊢
          cases r with
          | error e => simp at h
          | ok built =>
            simp only [Except.ok.injEq] at h
            exact ⟨built, rfl, h.symm⟩
        | _ => simp [throw, throwThe, MonadExceptOf.throw] at h
    | null =>
      simp only [unmarshalMap, featuresOf] at h ⊢
      simp [JSON.index, JSON.lookup, throw, throwThe, MonadExceptOf.throw] at h
    | _ => simp [unmarshalMap] at h

theorem filterResults_features (env : Env) (data : List (String × JSON)) (from_ : Point)
    (features : List JSON) (hfit : JSON.fitsMembers data = true)
    (hf : JSON.index data "features" = .arr features) :
    filterResults env (some (.obj data)) from_ =
      (featureLoop env from_ features []).map (sortSlice lessDistance) := by
  unfold filterResults
  simp only [bind, Except.bind, pure, Except.pure, unmarshalMap, hfit, if_true, hf]
  cases featureLoop env from_ features [] <;> rfl

/-! ## The provider -/

/-- C4, as amended. When `filterResults` succeeds, the sequence it returns is a
permutation of the records built from the features that list the drive-thru tag, one
record for each of them, and it is sorted ascending by `DistanceMiles` when no record
has a distance that is not-a-number. -/
theorem filterResults_permutation_sorted_without_nan (env : Env) (body : Option JSON)
    (from_ : Point) (out : List Location) (h : filterResults env body from_ = .ok out) :
    out.Perm (builtRecords env from_ (featuresOf body)) ∧
    (builtRecords env from_ (featuresOf body)).length =
      ((featuresOf body).filter hasDriveThruTag).length ∧
    ((∀ l ∈ out, l.DistanceMiles ≠ .nan) →
      out.Pairwise (fun a b => a.DistanceMiles.le b.DistanceMiles = true)) := by
  obtain ⟨built, hb, rfl⟩ := filterResults_ok env body from_ out h
  have hl := featureLoop_built env from_ (featuresOf body) [] built hb
  simp only [List.length_nil, List.nil_append] at hl
  refine ⟨?_, ?_, ?_⟩
  · rw [builtRecords, List.enum, ← hl.1]
    exact sortSlice_perm lessDistance built
  · rw [builtRecords, List.enum]
    exact hl.2
  · intro hn
    exact sortSlice_sorted built
      (fun y hy => hn y ((sortSlice_perm lessDistance built).symm.subset hy))

theorem filterResults_permutation_sorted_without_nan_witness :
    [exampleNear, exampleFar ⟨"America/New_York", -18000⟩].Perm
      (builtRecords exampleEnv ⟨40, -73⟩ (featuresOf (some exampleBody))) ∧
    (builtRecords exampleEnv ⟨40, -73⟩ (featuresOf (some exampleBody))).length =
      ((featuresOf (some exampleBody)).filter hasDriveThruTag).length ∧
    ((∀ l ∈ [exampleNear, exampleFar ⟨"America/New_York", -18000⟩],
        l.DistanceMiles ≠ .nan) →
      [exampleNear, exampleFar ⟨"America/New_York", -18000⟩].Pairwise
        (fun a b => a.DistanceMiles.le b.DistanceMiles = true)) :=
  filterResults_permutation_sorted_without_nan exampleEnv (some exampleBody) ⟨40, -73⟩
    [exampleNear, exampleFar ⟨"America/New_York", -18000⟩] (by decide!)

/-- C4, the claim as stated fails. With a feature at the antipode of the query point,
where the distance routine gives not-a-number, `filterResults` succeeds and returns the
distances 69.09, not-a-number, 0.69 in this order: the first entry is not at most the
second, nor the second at most the third. -/
theorem antipode_distance_leaves_unsorted :
    filterResults antipodeEnv (some antipodeBody) ⟨40, -73⟩ = .ok antipodeRecords ∧
    ¬ antipodeRecords.Chain' (fun a b => a.DistanceMiles.le b.DistanceMiles = true) := by
  have hfit : JSON.fitsMembers [("features", JSON.arr antipodeFeatures)] = true := by decide!
  have hloop : featureLoop antipodeEnv ⟨40, -73⟩ antipodeFeatures [] = .ok antipodeRecords := by
    decide!
  have hsort : sortSlice lessDistance antipodeRecords = antipodeRecords := by decide!
  refine ⟨?_, by simp [antipodeRecords, antipodeRecord, Float64.le]⟩
  rw [antipodeBody, filterResults_features antipodeEnv _ ⟨40, -73⟩ antipodeFeatures hfit rfl,
    hloop]
  simp only [Except.map, hsort]

/-- C5, as amended. On a response whose numbers are all within the range of `float64`
and whose features are all well-formed, on a host where the zone of each drive-thru
feature loads, `filterResults` returns no error; the sequence it returns has exactly
one Location for each feature that lists "DRIVETHRU", being a permutation of those
features' records; and a feature that does not list the tag is skipped at every
instant, nothing being asked of its other fields. -/
theorem one_location_per_drive_thru_feature (env : Env) (data : List (String × JSON))
    (from_ : Point) (features : List JSON)
    (hfit : JSON.fitsMembers data = true)
    (hf : JSON.index data "features" = .arr features)
    (hw : ∀ f ∈ features, WellFormed f) (hz : ZonesLoad env features) :
    ∃ locs, filterResults env (some (.obj data)) from_ = .ok locs ∧
      locs.length = (features.filter hasDriveThruTag).length ∧
      locs.Perm (builtRecords env from_ features) ∧
      ∀ f ∈ features, hasDriveThruTag f = false →
        ∀ now, processFeature env from_ now f = .ok none := by
  obtain ⟨built, hb⟩ := featureLoop_wellFormed env from_ features hw hz []
  have hr : filterResults env (some (.obj data)) from_ = .ok (sortSlice lessDistance built) := by
    rw [filterResults_features env data from_ features hfit hf, hb]
    rfl
  have hl := featureLoop_built env from_ features [] built hb
  simp only [List.length_nil, List.nil_append] at hl
  have hperm : (sortSlice lessDistance built).Perm (builtRecords env from_ features) := by
    rw [builtRecords, List.enum, ← hl.1]
    exact sortSlice_perm lessDistance built
  refine ⟨_, hr, ?_, hperm, ?_⟩
  · rw [(sortSlice_perm lessDistance built).length_eq, hl.1]
    exact hl.2
  · intro f hmem htag now
    obtain ⟨tags, ht, -⟩ := hw f hmem
    have e := hasDriveThruTag_of_tags f tags ht
    rw [htag] at e
    exact processFeature_skip env from_ now f tags ht (by simpa using e.symm)

theorem exampleFeatures_wellFormed : ∀ f ∈ exampleFeatures, WellFormed f := by
  intro f hf
  simp only [exampleFeatures, List.mem_cons, List.mem_singleton, List.not_mem_nil, or_false] at hf
  rcases hf with rfl | rfl | rfl
  · exact ⟨_, exampleFeature_tags _ _ _, fun _ =>
      ⟨_, exampleFeature_fields _ _ _, 20, 0, 4, 0, by decide⟩⟩
  · exact ⟨["WIFI"], ⟨_, _, rfl, rfl, rfl⟩, fun h => absurd h (by decide)⟩
  · exact ⟨_, exampleFeature_tags _ _ _, fun _ =>
      ⟨_, exampleFeature_fields _ _ _, 5, 0, 5, 0, by decide⟩⟩

theorem exampleEnv_zonesLoad (fs : List JSON) : ZonesLoad exampleEnv fs := by
  intro f _ _ x _
  rfl

theorem one_location_per_drive_thru_feature_witness :
    ∃ locs, filterResults exampleEnv (some (.obj [("features", .arr exampleFeatures)]))
        ⟨40, -73⟩ = .ok locs ∧
      locs.length = (exampleFeatures.filter hasDriveThruTag).length ∧
      locs.Perm (builtRecords exampleEnv ⟨40, -73⟩ exampleFeatures) ∧
      ∀ f ∈ exampleFeatures, hasDriveThruTag f = false →
        ∀ now, processFeature exampleEnv ⟨40, -73⟩ now f = .ok none :=
  one_location_per_drive_thru_feature exampleEnv [("features", .arr exampleFeatures)] ⟨40, -73⟩
    exampleFeatures (by decide!) rfl exampleFeatures_wellFormed (exampleEnv_zonesLoad _)

/-- C5, the claim as stated fails. A body without features, all of whose features are
therefore well-formed, gets an error from `filterResults` when it holds a number
beyond the range of `float64`; and the well-formed features of `exampleBody` get no
Location on a host whose zones do not load. -/
theorem well_formed_features_without_locations :
    (∀ f ∈ featuresOf (some overflowBody), WellFormed f) ∧
    filterResults exampleEnv (some overflowBody) ⟨40, -73⟩ =
      .error (.error "json: cannot unmarshal number into Go value of type float64") ∧
    (∀ f ∈ featuresOf (some exampleBody), WellFormed f) ∧
    filterResults brokenZoneEnv (some exampleBody) ⟨40, -73⟩ =
      .error (.panic "time: missing Location in call to Time.In") := by
  refine ⟨?_, by decide!, ?_, by decide!⟩
  · intro f hf
    simp [featuresOf, overflowBody, JSON.index, JSON.lookup] at hf
  · intro f hf
    have e : featuresOf (some exampleBody) = exampleFeatures := rfl
    rw [e] at hf
    exact exampleFeatures_wellFormed f hf

theorem GetLocations_ok (env : Env) (lat lng radiusMi : ℚ) (maxResults : Int)
    (out : List Location) (h : GetLocations env lat lng radiusMi maxResults = .ok out) :
    ∃ resp body locs,
      env.Get (env.Execute ⟨lat, lng, radiusMi * kmPerMi, maxResults⟩) = .ok resp ∧
      resp.ReadAll = .ok body ∧ filterResults env body ⟨lat, lng⟩ = .ok locs ∧
      0 ≤ min locs.length maxResults ∧
      out = locs.take (min locs.length maxResults).toNat := by
  unfold GetLocations at h
  simp only [bind, Except.bind, pure, Except.pure] at h
  generalize hg : env.Get (env.Execute ⟨lat, lng, radiusMi * kmPerMi, maxResults⟩) = g at h
  cases g with
  | error e => simp [throw, throwThe, MonadExceptOf.throw] at h
  | ok resp =>
    simp only at h
    generalize hb : resp.ReadAll = b at h
    cases b with
    | error e => simp [throw, throwThe, MonadExceptOf.throw] at h
    | ok body =>
      simp only at h
      generalize hr : filterResults env body ⟨lat, lng⟩ = r at h
      cases r with
      | error e => simp at h
      | ok locs =>
        simp only at h
        by_cases k : min (locs.length : Int) maxResults < 0
        · simp [k, throw, throwThe, MonadExceptOf.throw] at h
        · simp only [k, if_false, Except.ok.injEq] at h
          exact ⟨resp, body, locs, rfl, hb, hr, not_lt.1 k, h.symm⟩

/-- C3. When `GetLocations` succeeds with `maxResults` at least 1, what it returns is
the first min(n, maxResults) entries of the n entries `filterResults` produced from the
response body, and so has at most `maxResults` entries. -/
theorem GetLocations_truncates (env : Env) (lat lng radiusMi : ℚ) (maxResults : Int)
    (out : List Location) (hm : 1 ≤ maxResults)
    (h : GetLocations env lat lng radiusMi maxResults = .ok out) :
    ∃ resp body locs,
      env.Get (env.Execute ⟨lat, lng, radiusMi * kmPerMi, maxResults⟩) = .ok resp ∧
      resp.ReadAll = .ok body ∧ filterResults env body ⟨lat, lng⟩ = .ok locs ∧
      out = locs.take (min locs.length maxResults).toNat ∧
      (out.length : Int) = min locs.length maxResults ∧
      (out.length : Int) ≤ maxResults := by
  obtain ⟨resp, body, locs, hg, hb, hf, hk, rfl⟩ := GetLocations_ok env lat lng radiusMi
    maxResults out h
  refine ⟨resp, body, locs, hg, hb, hf, rfl, ?_, ?_⟩
  · rw [List.length_take]
    unfold min at hk ⊢
    split_ifs at hk ⊢ <;> omega
  · rw [List.length_take]
    unfold min
    split_ifs <;> omega

theorem GetLocations_truncates_witness :
    ∃ resp body locs,
      exampleEnv.Get (exampleEnv.Execute ⟨40, -73, 5 * kmPerMi, 1⟩) = .ok resp ∧
      resp.ReadAll = .ok body ∧ filterResults exampleEnv body ⟨40, -73⟩ = .ok locs ∧
      [exampleNear] = locs.take (min locs.length 1).toNat ∧
      (([exampleNear] : List Location).length : Int) = min locs.length 1 ∧
      (([exampleNear] : List Location).length : Int) ≤ 1 :=
  GetLocations_truncates exampleEnv 40 (-73) 5 1 [exampleNear] (by decide) (by decide!)

/-- A drive-thru feature whose zone does not load makes the iteration panic. -/
theorem processFeature_zone_fails (env : Env) (from_ : Point) (now : Int) (f : JSON)
    (tags : List String) (x : Fields) (ht : HasTags f tags) (hd : "DRIVETHRU" ∈ tags)
    (hx : HasFields f x) (hz : LoadLocation env (env.LookupZoneName x.lat x.lng) = none) :
    processFeature env from_ now f =
      .error (.panic "time: missing Location in call to Time.In") := by
  obtain ⟨loc, props, rfl, hp, hf⟩ := ht
  obtain ⟨loc2, props2, geom, coords, latJ, lngJ, e, hp2, hg, hc, h1, h0, hlat, hlng, ha, hh⟩ := hx
  cases e
  rw [hp] at hp2
  cases hp2
  simp [processFeature, JSON.assertObject, JSON.assertArray, JSON.assertString, JSON.elemAt, hp,
    hf, hg, hc, h1, h0, hlat, hlng, ha, hz, nowIn, driveThruLoop_strings, hd,
    bind, Except.bind, pure, Except.pure]

/-- Coordinates for which no zone is found are placed in UTC. -/
theorem LoadLocation_unknown_zone (env : Env) : LoadLocation env "" = some time.UTC := by
  simp [LoadLocation]

/-- C7. A body that is not JSON and a body without the `features` list give an error.
A feature without `properties` makes `filterResults` panic in its type assertion, and
so does a drive-thru feature without `driveTodayHours`; a feature without `geometry`
that does not list the drive-thru tag gives no error at all. -/
theorem missing_fields_outcomes (env : Env) (from_ : Point) :
    filterResults env none from_ = .error (.error "invalid character") ∧
    filterResults env (some (.obj [])) from_ = .error (.error "Missing data from API") ∧
    filterResults env (some (.obj [("features", .arr [.obj []])])) from_ =
      .error (.panic "interface conversion: not a map") ∧
    filterResults exampleEnv (some (.obj [("features", .arr [featureWithoutHours])])) from_ =
      .error (.panic "interface conversion: not string") ∧
    filterResults env (some (.obj [("features", .arr [featureWithoutGeometry])])) from_ =
      .ok [] := by
  have hfit : JSON.fitsMembers [("features", JSON.arr [featureWithoutHours])] = true := by
    decide!
  refine ⟨rfl, rfl, rfl, ?_, rfl⟩
  rw [filterResults_features exampleEnv _ from_ [featureWithoutHours] hfit rfl]
  rfl

/-- C9. On a host where the zone found for a coordinate does not load, `filterResults`
panics on the first drive-thru feature and returns no Location; with coordinates for
which no zone is found it returns every Location, the hours being read in UTC. -/
theorem zone_load_failure_panics :
    filterResults brokenZoneEnv (some exampleBody) ⟨40, -73⟩ =
      .error (.panic "time: missing Location in call to Time.In") ∧
    filterResults unknownZoneEnv (some exampleBody) ⟨40, -73⟩ =
      .ok [exampleNear, exampleFar time.UTC] := by
  decide!

/-! ## The handler -/

theorem handlerLoop_outcomes (providers : String → Option Provider) (request : Request)
    (outcome : String → Except String (List Location)) (types : List String) :
    ∀ locations errs,
      (∀ t ∈ types, ∃ p, providers t = some p ∧
        p.GetLocations request.Lat request.Lng request.DistanceMiles request.MaxResults =
          liftOutcome (outcome t)) →
      handlerLoop providers request types locations errs =
        .ok ⟨locations ++ (types.filterMap fun t => successOf (outcome t)).flatten,
          errs ++ types.filterMap fun t => failureOf (outcome t)⟩ := by
  induction types with
  | nil =>
    intro locations errs _
    simp [handlerLoop]
  | cons t ts ih =>
    intro locations errs h
    obtain ⟨p, hp, hg⟩ := h t (List.mem_cons_self t ts)
    have ih2 := fun l e => ih l e (fun u hu => h u (List.mem_cons_of_mem t hu))
    rw [handlerLoop, hp]
    simp only
    rw [hg]
    cases ho : outcome t with
    | ok locs => simp [liftOutcome, ih2, successOf, failureOf, ho]
    | error msg => simp [liftOutcome, ih2, successOf, failureOf, ho]

/-- C6. When each requested type has a provider that ends in an outcome (locations or
an error message), the aggregation loop of `handler` returns the concatenation, in the
order of the requested types, of the successful providers' locations, and the failing
providers' messages, one for each of them in that order; when every provider fails the
locations are the empty sequence, not an error. -/
theorem aggregation_isolates_failures (providers : String → Option Provider)
    (request : Request) (outcome : String → Except String (List Location))
    (h : ∀ t ∈ request.Types, ∃ p, providers t = some p ∧
      p.GetLocations request.Lat request.Lng request.DistanceMiles request.MaxResults =
        liftOutcome (outcome t)) :
    handlerLoop providers request request.Types [] [] =
      .ok ⟨(request.Types.filterMap fun t => successOf (outcome t)).flatten,
        request.Types.filterMap fun t => failureOf (outcome t)⟩ ∧
    ((∀ t ∈ request.Types, successOf (outcome t) = none) →
      handlerLoop providers request request.Types [] [] =
        .ok ⟨[], request.Types.filterMap fun t => failureOf (outcome t)⟩ ∧
      (request.Types.filterMap fun t => failureOf (outcome t)).length =
        request.Types.length) := by
  have e := handlerLoop_outcomes providers request outcome request.Types [] [] h
  simp only [List.nil_append] at e
  refine ⟨e, fun hall => ?_⟩
  have hs : (request.Types.filterMap fun t => successOf (outcome t)) = [] := by
    rw [List.filterMap_eq_nil_iff]
    exact hall
  refine ⟨by rw [e, hs]; rfl, ?_⟩
  have hf : ∀ l : List String, (∀ t ∈ l, successOf (outcome t) = none) →
      (l.filterMap fun t => failureOf (outcome t)).length = l.length := by
    intro l
    induction l with
    | nil => simp
    | cons t ts ih =>
      intro hl
      have h1 := hl t (List.mem_cons_self t ts)
      have h2 := ih (fun u hu => hl u (List.mem_cons_of_mem t hu))
      cases ho : outcome t with
      | ok locs => simp [successOf, ho] at h1
      | error msg =>
        have hft : failureOf (outcome t) = some msg := by rw [ho]; rfl
        simp only [List.filterMap_cons, hft, List.length_cons, h2]
  exact hf _ hall

theorem aggregation_isolates_failures_witness :
    handlerLoop exampleProviders exampleRequest exampleRequest.Types [] [] =
      .ok ⟨(exampleRequest.Types.filterMap fun t => successOf (exampleOutcome t)).flatten,
        exampleRequest.Types.filterMap fun t => failureOf (exampleOutcome t)⟩ ∧
    ((∀ t ∈ exampleRequest.Types, successOf (exampleOutcome t) = none) →
      handlerLoop exampleProviders exampleRequest exampleRequest.Types [] [] =
        .ok ⟨[], exampleRequest.Types.filterMap fun t => failureOf (exampleOutcome t)⟩ ∧
      (exampleRequest.Types.filterMap fun t => failureOf (exampleOutcome t)).length =
        exampleRequest.Types.length) :=
  aggregation_isolates_failures exampleProviders exampleRequest exampleOutcome (by
    intro t ht
    simp only [exampleRequest, List.mem_cons, List.mem_singleton, List.not_mem_nil,
      or_false] at ht
    rcases ht with rfl | rfl
    · exact ⟨_, rfl, rfl⟩
    · exact ⟨_, rfl, rfl⟩)

/-- C8. The body with `lat` 1.0, `lng` -2.0 and `types` holding "mcdonalds" is accepted
and normalised to `DistanceMiles` 5.0 and `MaxResults` 30. A body that also holds the
members `Lat` and `Distance_Miles` passes the schema, which reads member names exactly,
and is then decoded without regard to case: the returned request has `Lat` 500 and
`DistanceMiles` 100 although the body supplies `lat` 1.0 and no `distance_miles`. -/
theorem validateRequest_capitalised_members :
    validateRequest (some exampleRequestBody) =
      .ok { Lat := 1, Lng := -2, DistanceMiles := 5, MaxResults := 30, ShowClosed := false
            Types := ["mcdonalds"] } ∧
    JSON.lookup "distance_miles" [("lat", .num 1), ("lng", .num (-2)), ("Lat", .int 500),
      ("Distance_Miles", .int 100)] = none ∧
    validateRequest (some capitalisedRequestBody) =
      .ok { Lat := 500, Lng := -2, DistanceMiles := 100, MaxResults := 30, ShowClosed := false
            Types := ["mcdonalds"] } := by
  refine ⟨by decide!, rfl, by decide!⟩

end Drivethrume
